import Mathlib

/-!
A shallow embedding of the zsim TLB level (tlb.cpp, two observed revisions)
and proofs about its access/invalidate pipelines.

The TLB orchestrates a CacheArray, a coherence controller (CC) and a
replacement policy.  CC and CacheArray are external collaborators here: they
are modelled as oracles (records of functions), and the TLB routines are
translated statement by statement from the source, additionally recording a
trace of the collaborator calls they make, in call order.

Machine integers: `uint64_t` cycle/address arithmetic is modelled over `Nat`
(the TLB only ever adds small latencies to cycles, and shifts/ors addresses;
no subtraction or overflow is involved on the modelled paths).  `int32_t`
line ids are modelled as `Int`, with `-1` the NOT_FOUND sentinel, exactly as
in the source.
-/

/-- MESI coherence states. -/
inductive MESIState
  | I
  | S
  | E
  | M
deriving DecidableEq, Repr

/-- Coherence access types (only GETS is issued by the TLB). -/
inductive AccessType
  | GETS
  | GETX
  | PUTS
  | PUTX
deriving DecidableEq, Repr

/-- Invalidation types. -/
inductive InvType
  | INV
  | INVX
deriving DecidableEq, Repr

/--
Memory request descriptor.  In the source, `state` is a pointer to a
coherence-state cell shared with the requester and `childLock` is a lock
pointer; here `state` carries the value of the cell and the lock is not
modelled (single-access executions).  The address field is named `pageNum`
as in the `tlb.h` variant of MemReq used by this repository.
-/
structure MemReq where
  pageNum : Nat
  type : AccessType
  childId : Nat
  state : MESIState
  cycle : Nat
  initialState : MESIState
  srcId : Int
  flags : Nat
deriving DecidableEq, Repr

/-- The TLB-local request type of the part_000 revision: `{pPageNum, curCycle, 0}`. -/
structure TLBReq where
  pageNum : Nat
  cycle : Nat
  flags : Nat
deriving DecidableEq, Repr

/-- Invalidation request descriptor (writeback out-parameter carried by value). -/
structure InvReq where
  lineAddr : Nat
  type : InvType
  cycle : Nat
  writeback : Bool
deriving DecidableEq, Repr

/--
Coherence-controller oracle.  `startAccess` returns the skip flag and the
(possibly rewritten) request type — per the source comment it "may change
req.type!" and nothing else.  The three `process*` functions map a start
cycle to a completion cycle.
-/
structure CC where
  startAccess : MemReq → Bool × AccessType
  processAccess : MemReq → Int → Nat → Nat
  processEviction : MemReq → Nat → Int → Nat → Nat
  processInv : InvReq → Int → Nat → Nat

/--
Cache-array oracle.  `lookup key` returns a line id or `-1` (NOT_FOUND);
`preinsert key` returns the victim key (written through `&WbAddr` in the
source) and the chosen slot id.  `postinsert` only mutates array metadata,
so it is recorded in the trace rather than modelled as a function.
-/
structure CacheArray where
  lookup : Nat → Int
  preinsert : Nat → Nat × Int

/-- Per-instance TLB parameters, including the globals it reads
(`pageBits`, `procMask`, `pteSize`, `lineBits` come from the simulator
context in the source). -/
structure TLB where
  accLat : Nat
  invLat : Nat
  pageWalk : Bool
  pageWalkLat : Nat
  pteSize : Nat
  lineBits : Nat
  pageBits : Nat
  procMask : Nat
  srcId : Int
  reqFlags : Nat

/-- One collaborator call made by a TLB routine, with the arguments passed. -/
inductive Event
  | startAccess (req : MemReq)
  | lookup (key : Nat)
  | preinsert (key : Nat)
  | processEviction (req : MemReq) (victimKey : Nat) (lineId : Int) (startCycle : Nat)
  | processAccess (req : MemReq) (lineId : Int) (startCycle : Nat)
  | postinsert (key : Nat) (req : MemReq) (lineId : Int)
  | endAccess (req : MemReq)
deriving DecidableEq, Repr

namespace Event

def isStart : Event → Bool
  | .startAccess _ => true
  | _ => false

def isEnd : Event → Bool
  | .endAccess _ => true
  | _ => false

def isLookup : Event → Bool
  | .lookup _ => true
  | _ => false

def isPre : Event → Bool
  | .preinsert _ => true
  | _ => false

def isPost : Event → Bool
  | .postinsert _ _ _ => true
  | _ => false

def isEvict : Event → Bool
  | .processEviction _ _ _ _ => true
  | _ => false

def isProcAcc : Event → Bool
  | .processAccess _ _ _ => true
  | _ => false

end Event

/-- Number of events in a trace satisfying a discriminator. -/
def countEvents (p : Event → Bool) (T : List Event) : Nat :=
  (T.filter p).length

/--
"Same request object" up to the fields CC is allowed to rewrite in place:
`startAccess` may rewrite `type`, and CC writes the shared `state` cell.
All identity-bearing fields agree.
-/
def MemReq.sameObj (a b : MemReq) : Bool :=
  a.pageNum == b.pageNum && a.cycle == b.cycle && a.srcId == b.srcId &&
    a.childId == b.childId && a.flags == b.flags

namespace TLB1
/-! The part_001 revision of tlb.cpp. -/

/-- The nested page-table-entry fetch request synthesized on a miss
(part_001, lines 69-73): address `(req.pageNum / pteSize) >> lineBits`,
type GETS, sharing the state cell, srcId and flags of the original
request; `c` is the running cycle after `respCycle += pageWalkLat`. -/
def pteReq (t : TLB) (req : MemReq) (c : Nat) : MemReq :=
  { pageNum := (req.pageNum / t.pteSize) >>> t.lineBits
    type := .GETS
    childId := 0
    state := req.state
    cycle := c
    initialState := req.state
    srcId := req.srcId
    flags := req.flags }

/--
`TLB::access` of the part_001 revision, translated line by line.

Note that `if (likely(!skipAccess)) {}` in the source has an EMPTY body: the skip
flag returned by `cc->startAccess` is computed and then ignored, and the
routine unconditionally continues with the lookup and the rest of the
pipeline.  The translation reproduces that faithfully.
-/
def access (cc : CC) (array : CacheArray) (t : TLB) (req0 : MemReq) :
    Nat × List Event :=
  -- uint64_t respCycle = req.cycle;
  -- bool skipAccess = cc->startAccess(req);  (may rewrite req.type)
  -- if (likely(!skipAccess)) { }             (empty body: no effect)
  let req : MemReq := { req0 with type := (cc.startAccess req0).2 }
  -- int32_t lineId = array->lookup(req.pageNum, nullptr, false);
  let lineId := array.lookup req.pageNum
  -- respCycle += accLat;
  let c1 := req0.cycle + t.accLat
  if lineId = -1 then
    -- lineId = array->preinsert(req.pageNum, nullptr, &WbAddr);
    let pre := array.preinsert req.pageNum
    -- respCycle = cc->processEviction(req, WbAddr, lineId, respCycle);
    let c2 := cc.processEviction req pre.1 pre.2 c1
    if t.pageWalk then
      -- respCycle += pageWalkLat; MemReq mem_req = {...};
      let memReq := pteReq t req (c2 + t.pageWalkLat)
      -- respCycle = cc->processAccess(mem_req, lineId, respCycle); accessed = true;
      let c3 := cc.processAccess memReq pre.2 (c2 + t.pageWalkLat)
      -- array->postinsert(req.pageNum, &req, lineId); then (!accessed) is false
      (c3,
        [.startAccess req0, .lookup req.pageNum, .preinsert req.pageNum,
         .processEviction req pre.1 pre.2 c1,
         .processAccess memReq pre.2 (c2 + t.pageWalkLat),
         .postinsert req.pageNum req pre.2,
         .endAccess req])
    else
      -- array->postinsert(req.pageNum, &req, lineId);
      -- if (!accessed) respCycle = cc->processAccess(req, lineId, respCycle);
      let c3 := cc.processAccess req pre.2 c2
      (c3,
        [.startAccess req0, .lookup req.pageNum, .preinsert req.pageNum,
         .processEviction req pre.1 pre.2 c1,
         .postinsert req.pageNum req pre.2,
         .processAccess req pre.2 c2,
         .endAccess req])
  else
    -- if (!accessed) respCycle = cc->processAccess(req, lineId, respCycle);
    let c2 := cc.processAccess req lineId c1
    (c2,
      [.startAccess req0, .lookup req.pageNum,
       .processAccess req lineId c1,
       .endAccess req])

/-- The request built by `TLB::translate` (part_001, lines 40-44):
key `procMask | (vAddr >> pageBits)`, type GETS, dummy I state. -/
def translateReq (t : TLB) (vAddr : Nat) (curCycle : Nat) : MemReq :=
  { pageNum := t.procMask ||| (vAddr >>> t.pageBits)
    type := .GETS
    childId := 0
    state := .I
    cycle := curCycle
    initialState := .I
    srcId := t.srcId
    flags := t.reqFlags }

/-- `TLB::translate` of the part_001 revision. -/
def translate (cc : CC) (array : CacheArray) (t : TLB) (vAddr : Nat)
    (curCycle : Nat) : Nat × List Event :=
  access cc array t (translateReq t vAddr curCycle)

end TLB1

namespace TLB0
/-! The part_000 revision of tlb.cpp. -/

/-- The nested page-table-entry fetch request synthesized on a miss
(part_000, lines 57-61): fresh dummy I state cell, the srcId and reqFlags
of the TLB itself; `c` is the running cycle after `respCycle += pageWalkLat`. -/
def pteReq (t : TLB) (req : TLBReq) (c : Nat) : MemReq :=
  { pageNum := (req.pageNum / t.pteSize) >>> t.lineBits
    type := .GETS
    childId := 0
    state := .I
    cycle := c
    initialState := .I
    srcId := t.srcId
    flags := t.reqFlags }

/--
`TLB::access` of the part_000 revision, translated line by line.  The page
walk is unconditional on a miss; `cc->startAccess` is called only on the
nested PTE-fetch request, its skip result guarded by `assert(!skipAccess)`.
A failed assertion halts the run: the result is `none` and the trace stops
at the offending call.
-/
def access (cc : CC) (array : CacheArray) (t : TLB) (req : TLBReq) :
    Option Nat × List Event :=
  -- uint64_t respCycle = req.cycle;
  -- int32_t lineId = array->lookup(req.pageNum, nullptr, false);
  let lineId := array.lookup req.pageNum
  -- respCycle += accLat;
  let c1 := req.cycle + t.accLat
  if lineId = -1 then
    -- lineId = array->preinsert(req.pageNum, nullptr, &WbAddr);
    let pre := array.preinsert req.pageNum
    -- Address pLineAddr = (req.pageNum / pteSize) >> lineBits;
    -- respCycle += pageWalkLat; MemReq mem_req = {...};
    let memReq := pteReq t req (c1 + t.pageWalkLat)
    -- array->postinsert(req.pageNum, &mem_req, lineId);
    -- bool skipAccess = cc->startAccess(mem_req); assert(!skipAccess);
    let sa := cc.startAccess memReq
    if sa.1 then
      (none,
        [.lookup req.pageNum, .preinsert req.pageNum,
         .postinsert req.pageNum memReq pre.2,
         .startAccess memReq])
    else
      let memReq1 : MemReq := { memReq with type := sa.2 }
      -- respCycle = cc->processAccess(mem_req, lineId, respCycle);
      let c2 := cc.processAccess memReq1 pre.2 (c1 + t.pageWalkLat)
      -- cc->endAccess(mem_req);
      (some c2,
        [.lookup req.pageNum, .preinsert req.pageNum,
         .postinsert req.pageNum memReq pre.2,
         .startAccess memReq,
         .processAccess memReq1 pre.2 (c1 + t.pageWalkLat),
         .endAccess memReq1])
  else
    (some c1, [.lookup req.pageNum])

/-- `TLB::translate` of the part_000 revision: `TLBReq req = {pPageNum, curCycle, 0}`. -/
def translate (cc : CC) (array : CacheArray) (t : TLB) (vAddr : Nat)
    (curCycle : Nat) : Option Nat × List Event :=
  access cc array t { pageNum := t.procMask ||| (vAddr >>> t.pageBits), cycle := curCycle, flags := 0 }

end TLB0

namespace TLB

/--
`TLB::invalidate`, identical in both revisions: the first statement is
`panic("TLB entry should not be invalidated by lower level caches.")`,
which terminates the run unconditionally, before the lookup.  The result is
always `none` (fatal) with an empty call trace.
-/
def invalidate (cc : CC) (array : CacheArray) (t : TLB) (req : InvReq) :
    Option Nat × List Event :=
  (none, [])

/--
The statements of `TLB::invalidate` AFTER the unconditional panic (dead
code in both revisions, lines 77-84 of part_000): look the address up,
assert presence (fatal if absent), and return
`cc.processInv req lineId (req.cycle + invLat)`.
-/
def invalidateAfterPanic (cc : CC) (array : CacheArray) (t : TLB) (req : InvReq) :
    Option Nat :=
  let lineId := array.lookup req.lineAddr
  if lineId = -1 then
    none
  else
    some (cc.processInv req lineId (req.cycle + t.invLat))

end TLB

/-! ### Concrete collaborators used for witnesses and counterexamples -/

/-- A coherence controller that never skips, never rewrites the request
type, and reports zero propagation latency on every call. -/
def ccId : CC :=
  { startAccess := fun r => (false, r.type)
    processAccess := fun _ _ c => c
    processEviction := fun _ _ _ c => c
    processInv := fun _ _ c => c }

/-- Like `ccId`, but `startAccess` always reports skip. -/
def ccSkip : CC :=
  { ccId with startAccess := fun r => (true, r.type) }

/-- An array in which every lookup misses; `preinsert k` designates slot 0
with victim key `k + 1`. -/
def arrEmpty : CacheArray :=
  { lookup := fun _ => -1
    preinsert := fun k => (k + 1, 0) }

/-- An array in which every lookup hits at slot 0. -/
def arrFull : CacheArray :=
  { lookup := fun _ => 0
    preinsert := fun k => (k + 1, 0) }

/-- A TLB instance: accLat 2, invLat 5, page walk enabled with latency 10. -/
def tFix : TLB :=
  { accLat := 2, invLat := 5, pageWalk := true, pageWalkLat := 10,
    pteSize := 8, lineBits := 6, pageBits := 12, procMask := 0,
    srcId := -1, reqFlags := 4 }

/-- A concrete GETS request at page 7, issued at cycle 100. -/
def reqFix : MemReq :=
  { pageNum := 7, type := .GETS, childId := 0, state := .I, cycle := 100,
    initialState := .I, srcId := -1, flags := 4 }

/-- A concrete part_000-revision request at page 7, issued at cycle 100. -/
def treqFix : TLBReq :=
  { pageNum := 7, cycle := 100, flags := 0 }

/-- A concrete invalidation request for page 7 at cycle 100. -/
def invReqFix : InvReq :=
  { lineAddr := 7, type := .INV, cycle := 100, writeback := false }

/-! ### C1: TLB::invalidate -/

/--
C1 counterexample: with a coherence controller whose `processInv` adds no
propagation latency and an array in which the requested address IS present,
`TLB::invalidate` does not succeed and does not return
`issuingCycle + invLat + 0 = 105`: it is fatal (the panic at function entry
fires before presence is even checked).
-/
theorem invalidate_present_key_fatal_cex :
    arrFull.lookup invReqFix.lineAddr ≠ -1 ∧
    (TLB.invalidate ccId arrFull tFix invReqFix).1 = none ∧
    (TLB.invalidate ccId arrFull tFix invReqFix).1 ≠
      some (invReqFix.cycle + tFix.invLat) := by
  decide

/--
C1 (amended): `TLB::invalidate` is fatal on EVERY invocation, present key
or absent: the unconditional panic at function entry terminates the run
before any collaborator is consulted.  The lookup / presence assertion /
`processInv` sequence demanded by the claim exists only as dead code after
the panic (modelled by `TLB.invalidateAfterPanic`, which indeed returns
`cc.processInv req lineId (req.cycle + invLat)` on a present key and is
fatal on an absent one).
-/
theorem invalidate_always_fatal (cc : CC) (array : CacheArray) (t : TLB)
    (req : InvReq) :
    (TLB.invalidate cc array t req).1 = none ∧
    (TLB.invalidate cc array t req).2 = [] ∧
    (array.lookup req.lineAddr ≠ -1 →
      TLB.invalidateAfterPanic cc array t req =
        some (cc.processInv req (array.lookup req.lineAddr) (req.cycle + t.invLat))) ∧
    (array.lookup req.lineAddr = -1 →
      TLB.invalidateAfterPanic cc array t req = none) := by
  refine ⟨rfl, rfl, ?_, ?_⟩
  · intro h
    simp [TLB.invalidateAfterPanic, h]
  · intro h
    simp [TLB.invalidateAfterPanic, h]

/--
C1 witness: concrete instance of `invalidate_always_fatal` at a present
key: the run is fatal, yet the dead code after the panic would have
returned cycle 105.
-/
theorem invalidate_always_fatal_witness :
    (TLB.invalidate ccId arrFull tFix invReqFix).1 = none ∧
    TLB.invalidateAfterPanic ccId arrFull tFix invReqFix = some 105 :=
  ⟨(invalidate_always_fatal ccId arrFull tFix invReqFix).1,
   (invalidate_always_fatal ccId arrFull tFix invReqFix).2.2.1 (by decide)⟩

/-! ### C2: the skip result of startAccess -/

/--
C2 (code bug): in the part_001 revision, `if (likely(!skipAccess)) {}` has
an empty body, so the skip result of `cc->startAccess` is ignored.  At a
concrete request on which `startAccess` reports skip (true), the pipeline
nevertheless performs the array lookup and a `processAccess`, and returns
the locally computed cycle `req.cycle + accLat` (102) instead of skipping
to `endAccess` — contradicting the claimed skip behaviour.
-/
theorem skip_ignored_code_bug :
    (ccSkip.startAccess reqFix).1 = true ∧
    countEvents Event.isLookup (TLB1.access ccSkip arrFull tFix reqFix).2 = 1 ∧
    countEvents Event.isProcAcc (TLB1.access ccSkip arrFull tFix reqFix).2 = 1 ∧
    (TLB1.access ccSkip arrFull tFix reqFix).1 = reqFix.cycle + tFix.accLat := by
  decide

/-! ### C3: miss-path eviction notification -/

/--
C3 counterexample: in the part_000 revision, an access that misses in the
array (concrete: empty array, page 7, cycle 100) performs a `preinsert` but
NO `processEviction` call at all — refuting the claim that every miss calls
`processEviction` and adopts its returned cycle.
-/
theorem miss_no_eviction_rev0_cex :
    arrEmpty.lookup treqFix.pageNum = -1 ∧
    countEvents Event.isPre (TLB0.access ccId arrEmpty tFix treqFix).2 = 1 ∧
    countEvents Event.isEvict (TLB0.access ccId arrEmpty tFix treqFix).2 = 0 := by
  decide

/--
C3 (amended): in the part_001 revision, every miss first calls
`Array.preinsert` and then `CC.processEviction` with the victim key and the
chosen slot at start cycle `req.cycle + accLat` (the first four trace
events are exactly startAccess, lookup, preinsert, processEviction), and
every subsequent fill-work `processAccess` call starts at the cycle
returned by `processEviction` (plus `pageWalkLat` when the page walk is
enabled) — i.e. the eviction cycle is adopted as the running cycle.  In the
part_000 revision, `processEviction` is never called.
-/
theorem miss_eviction_rev1 (cc : CC) (array : CacheArray) (t : TLB)
    (req : MemReq) (treq : TLBReq)
    (hmiss : array.lookup req.pageNum = -1) :
    ((TLB1.access cc array t req).2.take 4 =
      [.startAccess req, .lookup req.pageNum, .preinsert req.pageNum,
       .processEviction { req with type := (cc.startAccess req).2 }
         (array.preinsert req.pageNum).1 (array.preinsert req.pageNum).2
         (req.cycle + t.accLat)]) ∧
    (∀ r l c, Event.processAccess r l c ∈ (TLB1.access cc array t req).2 →
      c = (if t.pageWalk then
             cc.processEviction { req with type := (cc.startAccess req).2 }
               (array.preinsert req.pageNum).1 (array.preinsert req.pageNum).2
               (req.cycle + t.accLat) + t.pageWalkLat
           else
             cc.processEviction { req with type := (cc.startAccess req).2 }
               (array.preinsert req.pageNum).1 (array.preinsert req.pageNum).2
               (req.cycle + t.accLat))) ∧
    countEvents Event.isEvict (TLB0.access cc array t treq).2 = 0 := by
  refine ⟨?_, ?_, ?_⟩
  · by_cases hw : t.pageWalk <;> simp [TLB1.access, hmiss, hw]
  · intro r l c hmem
    by_cases hw : t.pageWalk <;> simp [TLB1.access, hmiss, hw] at hmem ⊢
    · exact hmem.2.2
    · exact hmem.2.2
  · by_cases h1 : array.lookup treq.pageNum = -1 <;>
      by_cases hs : (cc.startAccess (TLB0.pteReq t treq (treq.cycle + t.accLat + t.pageWalkLat))).1 <;>
      simp [TLB0.access, h1, hs, countEvents, Event.isEvict]

/--
C3 witness: concrete instance of `miss_eviction_rev1` on a missing key —
the first four part_001 trace events are startAccess, lookup, preinsert and
processEviction of victim key 8 at slot 0, start cycle 102.
-/
theorem miss_eviction_rev1_witness :
    (TLB1.access ccId arrEmpty tFix reqFix).2.take 4 =
      [.startAccess reqFix, .lookup reqFix.pageNum, .preinsert reqFix.pageNum,
       .processEviction { reqFix with type := (ccId.startAccess reqFix).2 }
         (arrEmpty.preinsert reqFix.pageNum).1 (arrEmpty.preinsert reqFix.pageNum).2
         (reqFix.cycle + tFix.accLat)] :=
  (miss_eviction_rev1 ccId arrEmpty tFix reqFix treqFix (by decide)).1

/-! ### C4: accLat is a lower bound on the completion cycle -/

namespace TLB1

/-- On monotone coherence controllers, the part_001 completion cycle is at
least `req.cycle + accLat`. -/
lemma access_fst_ge (cc : CC) (array : CacheArray) (t : TLB) (req : MemReq)
    (hPA : ∀ r l c, c ≤ cc.processAccess r l c)
    (hPE : ∀ r k l c, c ≤ cc.processEviction r k l c) :
    req.cycle + t.accLat ≤ (access cc array t req).1 := by
  by_cases h1 : array.lookup req.pageNum = -1 <;> by_cases hw : t.pageWalk <;>
    simp [access, h1, hw]
  · exact le_trans (le_trans (hPE _ _ _ _) (Nat.le_add_right _ _)) (hPA _ _ _)
  · exact le_trans (hPE _ _ _ _) (hPA _ _ _)
  · exact hPA _ _ _
  · exact hPA _ _ _

/-- Every `processAccess` call made by the part_001 pipeline starts no
earlier than `req.cycle + accLat`. -/
lemma access_procAcc_ge (cc : CC) (array : CacheArray) (t : TLB) (req : MemReq)
    (hPE : ∀ r k l c, c ≤ cc.processEviction r k l c) :
    ∀ r l c, Event.processAccess r l c ∈ (access cc array t req).2 →
      req.cycle + t.accLat ≤ c := by
  intro r l c hmem
  by_cases h1 : array.lookup req.pageNum = -1 <;> by_cases hw : t.pageWalk <;>
    simp [access, h1, hw] at hmem
  · obtain ⟨-, -, rfl⟩ := hmem
    exact le_trans (hPE _ _ _ _) (Nat.le_add_right _ _)
  · obtain ⟨-, -, rfl⟩ := hmem
    exact hPE _ _ _ _
  · obtain ⟨-, -, rfl⟩ := hmem
    exact le_refl _
  · obtain ⟨-, -, rfl⟩ := hmem
    exact le_refl _

/-- Every `processEviction` call made by the part_001 pipeline starts
exactly at `req.cycle + accLat` (so in particular no earlier). -/
lemma access_evict_cycle_eq (cc : CC) (array : CacheArray) (t : TLB) (req : MemReq) :
    ∀ r k l c, Event.processEviction r k l c ∈ (access cc array t req).2 →
      c = req.cycle + t.accLat := by
  intro r k l c hmem
  by_cases h1 : array.lookup req.pageNum = -1 <;> by_cases hw : t.pageWalk <;>
    simp [access, h1, hw] at hmem
  · exact hmem.2.2.2
  · exact hmem.2.2.2

end TLB1

namespace TLB0

/-- On monotone coherence controllers, every normally-returning part_000
access completes no earlier than `req.cycle + accLat`. -/
lemma access_some_ge (cc : CC) (array : CacheArray) (t : TLB) (treq : TLBReq)
    (hPA : ∀ r l c, c ≤ cc.processAccess r l c) :
    ∀ n, (access cc array t treq).1 = some n → treq.cycle + t.accLat ≤ n := by
  intro n hn
  by_cases h1 : array.lookup treq.pageNum = -1 <;>
    by_cases hs : (cc.startAccess (pteReq t treq (treq.cycle + t.accLat + t.pageWalkLat))).1 <;>
    simp [access, h1, hs] at hn
  · exact hn ▸ le_trans (Nat.le_add_right _ _) (hPA _ _ _)
  · exact hn ▸ Nat.le_refl _
  · exact hn ▸ Nat.le_refl _

/-- Every `processAccess` call made by the part_000 pipeline starts no
earlier than `req.cycle + accLat`. -/
lemma access_procAcc_ge0 (cc : CC) (array : CacheArray) (t : TLB) (treq : TLBReq) :
    ∀ r l c, Event.processAccess r l c ∈ (access cc array t treq).2 →
      treq.cycle + t.accLat ≤ c := by
  intro r l c hmem
  by_cases h1 : array.lookup treq.pageNum = -1 <;>
    by_cases hs : (cc.startAccess (pteReq t treq (treq.cycle + t.accLat + t.pageWalkLat))).1 <;>
    simp [access, h1, hs] at hmem
  obtain ⟨-, -, rfl⟩ := hmem
  exact Nat.le_add_right _ _

end TLB0

/--
C4: assuming every CC call returns a cycle no smaller than the start cycle
passed to it, both revisions of `TLB::access` complete no earlier than
`req.cycle + accLat`; moreover `accLat` is charged before any
coherence-induced latency: every `processAccess` call starts at a cycle
`≥ req.cycle + accLat`, and every `processEviction` call starts exactly at
`req.cycle + accLat`.
-/
theorem access_latency_lower_bound (cc : CC) (array : CacheArray) (t : TLB)
    (req : MemReq) (treq : TLBReq)
    (hPA : ∀ r l c, c ≤ cc.processAccess r l c)
    (hPE : ∀ r k l c, c ≤ cc.processEviction r k l c) :
    (req.cycle + t.accLat ≤ (TLB1.access cc array t req).1) ∧
    (∀ r l c, Event.processAccess r l c ∈ (TLB1.access cc array t req).2 →
        req.cycle + t.accLat ≤ c) ∧
    (∀ r k l c, Event.processEviction r k l c ∈ (TLB1.access cc array t req).2 →
        c = req.cycle + t.accLat) ∧
    (∀ n, (TLB0.access cc array t treq).1 = some n → treq.cycle + t.accLat ≤ n) ∧
    (∀ r l c, Event.processAccess r l c ∈ (TLB0.access cc array t treq).2 →
        treq.cycle + t.accLat ≤ c) :=
  ⟨TLB1.access_fst_ge cc array t req hPA hPE,
   TLB1.access_procAcc_ge cc array t req hPE,
   TLB1.access_evict_cycle_eq cc array t req,
   TLB0.access_some_ge cc array t treq hPA,
   TLB0.access_procAcc_ge0 cc array t treq⟩

/--
C4 witness: with the zero-latency controller and an empty array, the
part_001 access issued at cycle 100 with accLat 2 completes at a cycle
at least 102.
-/
theorem access_latency_lower_bound_witness :
    reqFix.cycle + tFix.accLat ≤ (TLB1.access ccId arrEmpty tFix reqFix).1 :=
  (access_latency_lower_bound ccId arrEmpty tFix reqFix treqFix
    (fun _ _ _ => le_refl _) (fun _ _ _ _ => le_refl _)).1

/-! ### C5: the nested page-table-entry fetch on a page-walk miss -/

/--
C5: in the part_001 revision, on every miss with the page-walk flag
enabled, the pipeline makes exactly one `processAccess` call, and that call
is on a nested read-shared (GETS) request whose address is
`(req.pageNum / pteSize) >> lineBits`, uses the slot chosen by `preinsert`
as the lineId, and starts (and stamps the nested request with) the cycle
`processEviction returned + pageWalkLat`.
-/
theorem miss_pagewalk_nested_pte_fetch (cc : CC) (array : CacheArray) (t : TLB)
    (req : MemReq)
    (hw : t.pageWalk = true)
    (hmiss : array.lookup req.pageNum = -1) :
    countEvents Event.isProcAcc (TLB1.access cc array t req).2 = 1 ∧
    (∀ r l c, Event.processAccess r l c ∈ (TLB1.access cc array t req).2 →
       r.pageNum = (req.pageNum / t.pteSize) >>> t.lineBits ∧
       r.type = .GETS ∧
       l = (array.preinsert req.pageNum).2 ∧
       c = cc.processEviction { req with type := (cc.startAccess req).2 }
             (array.preinsert req.pageNum).1 (array.preinsert req.pageNum).2
             (req.cycle + t.accLat) + t.pageWalkLat ∧
       r.cycle = c) := by
  constructor
  · simp [TLB1.access, hmiss, hw, countEvents, Event.isProcAcc]
  · intro r l c hmem
    simp [TLB1.access, hmiss, hw] at hmem
    obtain ⟨rfl, rfl, rfl⟩ := hmem
    simp [TLB1.pteReq]

/--
C5 witness: at the concrete miss (empty array, page walk enabled) the
part_001 pipeline makes exactly one `processAccess` call.
-/
theorem miss_pagewalk_nested_pte_fetch_witness :
    countEvents Event.isProcAcc (TLB1.access ccId arrEmpty tFix reqFix).2 = 1 :=
  (miss_pagewalk_nested_pte_fetch ccId arrEmpty tFix reqFix rfl (by decide)).1

/-! ### C6: process masks keep array keys distinct -/

/-- A multiple of `2 ^ W` has all bits below `W` clear. -/
lemma testBit_low_of_mod_pow_eq_zero {m W i : Nat} (h : m % 2 ^ W = 0)
    (hi : i < W) : m.testBit i = false := by
  have hx := Nat.testBit_mod_two_pow m W i
  rw [h] at hx
  simp [Nat.zero_testBit, hi] at hx
  exact hx

/-- Oring a value `v < 2 ^ W` onto masks whose set bits all lie at or above
bit `W` is injective in the mask. -/
lemma lor_inj_of_high_masks (v m1 m2 W : Nat) (hv : v < 2 ^ W)
    (h1 : m1 % 2 ^ W = 0) (h2 : m2 % 2 ^ W = 0)
    (heq : m1 ||| v = m2 ||| v) : m1 = m2 := by
  apply Nat.eq_of_testBit_eq
  intro i
  have hb := congrArg (fun x => Nat.testBit x i) heq
  simp only [Nat.testBit_lor] at hb
  by_cases hi : i < W
  · rw [testBit_low_of_mod_pow_eq_zero h1 hi, testBit_low_of_mod_pow_eq_zero h2 hi]
  · have hvb : v.testBit i = false :=
      Nat.testBit_lt_two_pow
        (lt_of_lt_of_le hv (Nat.pow_le_pow_right (by norm_num) (le_of_not_lt hi)))
    rw [hvb] at hb
    simpa using hb

/--
C6: the array keys computed by `TLB::translate` — `procMask | vPageNum`
with `vPageNum = vAddr >> pageBits` — are distinct for two TLB instances
with distinct process masks whose set bits all lie outside the significant
bit range of the page number (i.e. at or above some bit `W` with
`vPageNum < 2 ^ W`).  Accesses from different processes therefore never
alias to the same array key.
-/
theorem translate_keys_distinct_across_processes (t1 t2 : TLB)
    (vAddr c1 c2 W : Nat)
    (hpb : t2.pageBits = t1.pageBits)
    (hv : vAddr >>> t1.pageBits < 2 ^ W)
    (hm1 : t1.procMask % 2 ^ W = 0)
    (hm2 : t2.procMask % 2 ^ W = 0)
    (hne : t1.procMask ≠ t2.procMask) :
    (TLB1.translateReq t1 vAddr c1).pageNum ≠ (TLB1.translateReq t2 vAddr c2).pageNum := by
  intro heq
  simp only [TLB1.translateReq] at heq
  rw [hpb] at heq
  exact hne (lor_inj_of_high_masks (vAddr >>> t1.pageBits) t1.procMask t2.procMask W
    hv hm1 hm2 heq)

/-- A TLB whose process mask is `16` (bits at or above bit 4), pageBits 2. -/
def tMaskA : TLB := { tFix with procMask := 16, pageBits := 2 }

/-- A TLB whose process mask is `32` (bits at or above bit 4), pageBits 2. -/
def tMaskB : TLB := { tFix with procMask := 32, pageBits := 2 }

/--
C6 witness: with page number `12 >> 2 = 3 < 2 ^ 4` and masks 16 and 32
(both multiples of `2 ^ 4`), the computed keys 19 and 35 differ.
-/
theorem translate_keys_distinct_witness :
    (TLB1.translateReq tMaskA 12 100).pageNum ≠ (TLB1.translateReq tMaskB 12 100).pageNum :=
  translate_keys_distinct_across_processes tMaskA tMaskB 12 100 100 4
    rfl (by decide) (by decide) (by decide) (by decide)

/-! ### C7: startAccess / endAccess bracketing -/

/--
C7: in the part_001 revision, every execution of `TLB::access` makes
exactly one `startAccess` call and exactly one `endAccess` call, and the
`endAccess` argument is the same request object (all fields except the
CC-rewritable `type`/`state` agree with the request passed to
`startAccess`).  In the part_000 revision, every execution that returns
normally makes equally many `startAccess` and `endAccess` calls (zero on a
hit, one each on a miss), again on the same request object.
-/
theorem start_end_access_matched (cc : CC) (array : CacheArray) (t : TLB)
    (req : MemReq) (treq : TLBReq) :
    (countEvents Event.isStart (TLB1.access cc array t req).2 = 1 ∧
     countEvents Event.isEnd (TLB1.access cc array t req).2 = 1 ∧
     (∀ r, Event.endAccess r ∈ (TLB1.access cc array t req).2 →
        r.sameObj req = true)) ∧
    (∀ n, (TLB0.access cc array t treq).1 = some n →
      countEvents Event.isStart (TLB0.access cc array t treq).2 =
        countEvents Event.isEnd (TLB0.access cc array t treq).2 ∧
      (∀ r, Event.endAccess r ∈ (TLB0.access cc array t treq).2 →
        ∃ r0, Event.startAccess r0 ∈ (TLB0.access cc array t treq).2 ∧
          r.sameObj r0 = true)) := by
  constructor
  · refine ⟨?_, ?_, ?_⟩
    · by_cases h1 : array.lookup req.pageNum = -1 <;> by_cases hw : t.pageWalk <;>
        simp [TLB1.access, h1, hw, countEvents, Event.isStart]
    · by_cases h1 : array.lookup req.pageNum = -1 <;> by_cases hw : t.pageWalk <;>
        simp [TLB1.access, h1, hw, countEvents, Event.isEnd]
    · intro r hmem
      by_cases h1 : array.lookup req.pageNum = -1 <;> by_cases hw : t.pageWalk <;>
        simp [TLB1.access, h1, hw] at hmem <;>
        simp [hmem, MemReq.sameObj]
  · intro n hn
    by_cases h1 : array.lookup treq.pageNum = -1
    · by_cases hs : (cc.startAccess (TLB0.pteReq t treq (treq.cycle + t.accLat + t.pageWalkLat))).1
      · simp [TLB0.access, h1, hs] at hn
      · constructor
        · simp [TLB0.access, h1, hs, countEvents, Event.isStart, Event.isEnd]
        · intro r hmem
          simp [TLB0.access, h1, hs] at hmem
          refine ⟨TLB0.pteReq t treq (treq.cycle + t.accLat + t.pageWalkLat), ?_, ?_⟩
          · simp [TLB0.access, h1, hs]
          · simp [hmem, MemReq.sameObj, TLB0.pteReq]
    · constructor
      · simp [TLB0.access, h1, countEvents, Event.isStart, Event.isEnd]
      · intro r hmem
        simp [TLB0.access, h1] at hmem

/--
C7 witness: concrete part_001 access (hit, zero-latency controller) makes
exactly one `startAccess` and one `endAccess` call.
-/
theorem start_end_access_matched_witness :
    countEvents Event.isStart (TLB1.access ccId arrFull tFix reqFix).2 = 1 ∧
    countEvents Event.isEnd (TLB1.access ccId arrFull tFix reqFix).2 = 1 :=
  ⟨(start_end_access_matched ccId arrFull tFix reqFix treqFix).1.1,
   (start_end_access_matched ccId arrFull tFix reqFix treqFix).1.2.1⟩

/-! ### C8: hit path never evicts; miss path inserts exactly once -/

/--
C8: in both revisions, an access that hits in the array makes no
`processEviction`, `preinsert` or `postinsert` call, and an access that
misses makes exactly one `preinsert` followed by exactly one `postinsert`:
the subsequence of insert events in the (call-ordered) trace is exactly
`[preinsert key, postinsert key ...]`, the preinsert strictly before the
postinsert.
-/
theorem hit_no_insert_miss_one_insert_pair (cc : CC) (array : CacheArray)
    (t : TLB) (req : MemReq) (treq : TLBReq) :
    (array.lookup req.pageNum ≠ -1 →
      countEvents Event.isEvict (TLB1.access cc array t req).2 = 0 ∧
      countEvents Event.isPre (TLB1.access cc array t req).2 = 0 ∧
      countEvents Event.isPost (TLB1.access cc array t req).2 = 0) ∧
    (array.lookup req.pageNum = -1 →
      countEvents Event.isPre (TLB1.access cc array t req).2 = 1 ∧
      countEvents Event.isPost (TLB1.access cc array t req).2 = 1 ∧
      (TLB1.access cc array t req).2.filter (fun e => e.isPre || e.isPost) =
        [.preinsert req.pageNum,
         .postinsert req.pageNum { req with type := (cc.startAccess req).2 }
           (array.preinsert req.pageNum).2]) ∧
    (array.lookup treq.pageNum ≠ -1 →
      countEvents Event.isEvict (TLB0.access cc array t treq).2 = 0 ∧
      countEvents Event.isPre (TLB0.access cc array t treq).2 = 0 ∧
      countEvents Event.isPost (TLB0.access cc array t treq).2 = 0) ∧
    (array.lookup treq.pageNum = -1 →
      countEvents Event.isPre (TLB0.access cc array t treq).2 = 1 ∧
      countEvents Event.isPost (TLB0.access cc array t treq).2 = 1 ∧
      (TLB0.access cc array t treq).2.filter (fun e => e.isPre || e.isPost) =
        [.preinsert treq.pageNum,
         .postinsert treq.pageNum
           (TLB0.pteReq t treq (treq.cycle + t.accLat + t.pageWalkLat))
           (array.preinsert treq.pageNum).2]) := by
  refine ⟨?_, ?_, ?_, ?_⟩
  · intro h1
    by_cases hw : t.pageWalk <;>
      simp [TLB1.access, h1, hw, countEvents, Event.isEvict, Event.isPre, Event.isPost]
  · intro h1
    by_cases hw : t.pageWalk <;>
      simp [TLB1.access, h1, hw, countEvents, Event.isPre, Event.isPost]
  · intro h1
    by_cases hs : (cc.startAccess (TLB0.pteReq t treq (treq.cycle + t.accLat + t.pageWalkLat))).1 <;>
      simp [TLB0.access, h1, hs, countEvents, Event.isEvict, Event.isPre, Event.isPost]
  · intro h1
    by_cases hs : (cc.startAccess (TLB0.pteReq t treq (treq.cycle + t.accLat + t.pageWalkLat))).1 <;>
      simp [TLB0.access, h1, hs, countEvents, Event.isPre, Event.isPost]

/--
C8 witness: concretely, a hit (full array) makes no eviction/preinsert
call, and a miss (empty array) makes exactly one preinsert and its insert
events in trace order are exactly preinsert 7 then postinsert 7.
-/
theorem hit_no_insert_miss_one_insert_pair_witness :
    countEvents Event.isEvict (TLB1.access ccId arrFull tFix reqFix).2 = 0 ∧
    countEvents Event.isPre (TLB1.access ccId arrEmpty tFix reqFix).2 = 1 ∧
    (TLB1.access ccId arrEmpty tFix reqFix).2.filter (fun e => e.isPre || e.isPost) =
      [.preinsert reqFix.pageNum,
       .postinsert reqFix.pageNum { reqFix with type := (ccId.startAccess reqFix).2 }
         (arrEmpty.preinsert reqFix.pageNum).2] :=
  ⟨((hit_no_insert_miss_one_insert_pair ccId arrFull tFix reqFix treqFix).1 (by decide)).1,
   ((hit_no_insert_miss_one_insert_pair ccId arrEmpty tFix reqFix treqFix).2.1 (by decide)).1,
   ((hit_no_insert_miss_one_insert_pair ccId arrEmpty tFix reqFix treqFix).2.1 (by decide)).2.2⟩

/-! ### C9: the part_000 nested startAccess must not skip -/

/--
C9: in the part_000 revision, on a miss, if `cc->startAccess` on the
synthesized PTE-fetch request reports skip, `assert(!skipAccess)` fails
and the run halts: the access returns no completion cycle, and neither
`processAccess` nor `endAccess` is ever called — there is no skip path.
-/
theorem rev0_nested_skip_is_fatal (cc : CC) (array : CacheArray) (t : TLB)
    (treq : TLBReq)
    (hmiss : array.lookup treq.pageNum = -1)
    (hskip : (cc.startAccess (TLB0.pteReq t treq (treq.cycle + t.accLat + t.pageWalkLat))).1 = true) :
    (TLB0.access cc array t treq).1 = none ∧
    countEvents Event.isEnd (TLB0.access cc array t treq).2 = 0 ∧
    countEvents Event.isProcAcc (TLB0.access cc array t treq).2 = 0 := by
  refine ⟨?_, ?_, ?_⟩ <;>
    simp [TLB0.access, hmiss, hskip, countEvents, Event.isEnd, Event.isProcAcc]

/--
C9 witness: with an always-skipping controller and an empty array, the
part_000 access at page 7, cycle 100 halts with no completion cycle.
-/
theorem rev0_nested_skip_is_fatal_witness :
    (TLB0.access ccSkip arrEmpty tFix treqFix).1 = none :=
  (rev0_nested_skip_is_fatal ccSkip arrEmpty tFix treqFix (by decide) (by decide)).1

/-! ### C10: postinsert always commits the page-number key -/

/--
C10: in both revisions, on every miss the single `postinsert` call commits
`req.pageNum` — the mask-combined page number of the original request — as
the slot key, never the line address of the nested PTE fetch.
-/
theorem miss_postinsert_commits_page_key (cc : CC) (array : CacheArray)
    (t : TLB) (req : MemReq) (treq : TLBReq)
    (hmiss1 : array.lookup req.pageNum = -1)
    (hmiss0 : array.lookup treq.pageNum = -1) :
    countEvents Event.isPost (TLB1.access cc array t req).2 = 1 ∧
    (∀ k r l, Event.postinsert k r l ∈ (TLB1.access cc array t req).2 →
      k = req.pageNum) ∧
    countEvents Event.isPost (TLB0.access cc array t treq).2 = 1 ∧
    (∀ k r l, Event.postinsert k r l ∈ (TLB0.access cc array t treq).2 →
      k = treq.pageNum) := by
  refine ⟨?_, ?_, ?_, ?_⟩
  · by_cases hw : t.pageWalk <;>
      simp [TLB1.access, hmiss1, hw, countEvents, Event.isPost]
  · intro k r l hmem
    by_cases hw : t.pageWalk <;> simp [TLB1.access, hmiss1, hw] at hmem <;>
      exact hmem.1
  · by_cases hs : (cc.startAccess (TLB0.pteReq t treq (treq.cycle + t.accLat + t.pageWalkLat))).1 <;>
      simp [TLB0.access, hmiss0, hs, countEvents, Event.isPost]
  · intro k r l hmem
    by_cases hs : (cc.startAccess (TLB0.pteReq t treq (treq.cycle + t.accLat + t.pageWalkLat))).1 <;>
      simp [TLB0.access, hmiss0, hs] at hmem <;>
      exact hmem.1

/--
C10 witness: the concrete part_001 miss commits key 7 (= reqFix.pageNum),
not the nested PTE line address 0.
-/
theorem miss_postinsert_commits_page_key_witness :
    countEvents Event.isPost (TLB1.access ccId arrEmpty tFix reqFix).2 = 1 :=
  (miss_postinsert_commits_page_key ccId arrEmpty tFix reqFix treqFix
    (by decide) (by decide)).1
